import Mathlib

/-!
Verification of the PDF extraction engine (`src/pdf_reader.rs`, `src/error.rs`)
as a shallow embedding.  The external Object-Graph Provider (the `lopdf`
library) is modelled abstractly: a loaded `Document` carries the page-table
keys in iteration order, a per-page text decoder, the trailer's Info slot,
dictionary resolution, and its encryption flags, exactly the operations the
repository uses.  The filesystem and the provider's `Document::load` are
modelled as fields of a `PdfFile`.
-/

namespace PdfMcp

/-- Substring test on character lists, the semantics of Rust's
`str::contains` with a string pattern. -/
def strStartsWith : List Char → List Char → Bool
  | _, [] => true
  | [], _ :: _ => false
  | c :: cs, p :: ps => c == p && strStartsWith cs ps

/-- `containsSub s pat` holds iff `pat` occurs as a contiguous substring of `s`. -/
def containsSub : List Char → List Char → Bool
  | [], pat => pat.isEmpty
  | c :: cs, pat => strStartsWith (c :: cs) pat || containsSub cs pat

/-- Rust `haystack.contains(needle)` on `String`s. -/
def containsStr (haystack needle : String) : Bool :=
  containsSub haystack.toList needle.toList

/-- The error taxonomy of `src/error.rs` (`PdfError`).  `IoError` wraps the
underlying system error's message. -/
inductive PdfError where
  | fileNotFound (path : String)
  | invalidFormat (msg : String)
  | parseError (msg : String)
  | pageNotFound (page : Nat) (total : Nat)
  | encryptedDocument
  | ioError (msg : String)
  deriving DecidableEq, Repr

/-- The two protocol-level error classes of `rmcp::model::ErrorData` that
`src/error.rs` uses: `invalid_params` and `internal_error`. -/
inductive ErrorClass where
  | invalidParams
  | internalError
  deriving DecidableEq, Repr

/-- A protocol error as built by `From<PdfError> for ErrorData`: a class
plus a message. -/
structure ErrorData where
  cls : ErrorClass
  message : String
  deriving DecidableEq, Repr

/-- `impl From<PdfError> for ErrorData` in `src/error.rs`. -/
def errorDataFrom : PdfError → ErrorData
  | .fileNotFound path => ⟨.invalidParams, "File not found: " ++ path⟩
  | .invalidFormat msg => ⟨.invalidParams, "Invalid PDF format: " ++ msg⟩
  | .parseError msg => ⟨.internalError, "PDF parsing failed: " ++ msg⟩
  | .pageNotFound page total =>
      ⟨.invalidParams,
        "Page " ++ Nat.repr page ++ " does not exist (document has " ++
          Nat.repr total ++ " pages)"⟩
  | .encryptedDocument =>
      ⟨.invalidParams, "Document is encrypted and requires a password"⟩
  | .ioError msg => ⟨.internalError, "IO error: " ++ msg⟩

/-- An object stored under a metadata key: the repository only ever applies
`lopdf::decode_text_string` to it, so it is modelled by that call's result. -/
structure StrObj where
  decodeText : Except Unit String

/-- A PDF dictionary as used by the repository: keyed lookup
(`Dictionary::get`) returning an object or failing. -/
structure Dict where
  find : String → Except Unit StrObj

/-- The object found in the trailer's `Info` slot: the repository only calls
`as_reference` and `as_dict` on it. -/
structure InfoObj where
  asRef : Except Unit Nat
  asDict : Except Unit Dict

/-- A parsed document handle: the slice of `lopdf::Document` the repository
uses.  `pageKeys` is the key sequence of `get_pages()` in iteration order;
`extractPage n` is `doc.extract_text(&[n])`; `trailerInfo` is
`doc.trailer.get(b"Info")`; `getDictionary` resolves an object id;
`isEncrypted` and `hasEncryptionState` are `doc.is_encrypted()` and
`doc.encryption_state.is_some()`. -/
structure Document where
  pageKeys : List Nat
  extractPage : Nat → Except String String
  trailerInfo : Except Unit InfoObj
  getDictionary : Nat → Except Unit Dict
  isEncrypted : Bool
  hasEncryptionState : Bool

/-- One operation's view of the world: the requested path, whether it
resolves to an existing file (`Path::exists`), and what the provider's
`Document::load` returns for it (`Err` carries the textual message). -/
structure PdfFile where
  path : String
  pathExists : Bool
  loadResult : Except String Document

/-- The substring classification of a provider load failure, hoisted from
the closure in `PdfReader::load_document`. -/
def classifyLoadError (msg : String) : PdfError :=
  if containsStr msg "encrypted" = true ∨ containsStr msg "password" = true then
    .encryptedDocument
  else if containsStr msg "invalid" = true ∨ containsStr msg "Invalid" = true then
    .invalidFormat msg
  else
    .parseError msg

/-- `PdfReader::load_document`: existence check, delegated parse with
substring classification of the failure, then the post-parse encryption
check. -/
def load_document (f : PdfFile) : Except PdfError Document :=
  if f.pathExists = false then
    .error (.fileNotFound f.path)
  else
    match f.loadResult with
    | .error msg => .error (classifyLoadError msg)
    | .ok doc =>
      if doc.isEncrypted = true ∧ doc.hasEncryptionState = false then
        .error .encryptedDocument
      else
        .ok doc

/-- Rust `{:?}` rendering of the skipped-pages vector, e.g. `[2, 3]`. -/
def fmtNatList (l : List Nat) : String :=
  "[" ++ String.intercalate ", " (l.map Nat.repr) ++ "]"

/-- The diagnostic suffix appended when pages were skipped: two newlines,
the count, and the literal index list (the `format!` in `extract_text` and
`extract_page_range_text`). -/
def skippedNote (skipped : List Nat) : String :=
  "\n\n[Note: " ++ Nat.repr skipped.length ++
    " page(s) could not be extracted due to font encoding issues: " ++
    fmtNatList skipped ++ "]"

/-- The per-page loop body shared by `extract_text` and
`extract_page_range_text`: on decode success append the text, separated by
one newline only when both accumulator and new text are non-empty; on
failure record the page as skipped. -/
def pageStep (doc : Document) (acc : String × List Nat) (n : Nat) :
    String × List Nat :=
  match doc.extractPage n with
  | .ok text =>
      (if acc.1 ≠ "" ∧ text ≠ "" then acc.1 ++ "\n" ++ text else acc.1 ++ text,
        acc.2)
  | .error _ => (acc.1, acc.2 ++ [n])

/-- `PdfReader::extract_text`: load, early-return empty for an empty page
table, fold the per-page loop over the page keys, then append the skipped
note when needed. -/
def extract_text (f : PdfFile) : Except PdfError String :=
  match load_document f with
  | .error e => .error e
  | .ok doc =>
    if doc.pageKeys = [] then
      .ok ""
    else
      let r := doc.pageKeys.foldl (pageStep doc) ("", [])
      if r.2 = [] then .ok r.1 else .ok (r.1 ++ skippedNote r.2)

/-- The message of the `ParseError` produced when single-page decoding
fails in `extract_page_text`. -/
def pageFailMsg (page : Nat) (e : String) : String :=
  "Failed to extract text from page " ++ Nat.repr page ++ ": " ++ e

/-- `PdfReader::extract_page_text`: load, validate the 1-based index
against the page-table length, then delegate decoding, surfacing a decode
failure as `ParseError`. -/
def extract_page_text (f : PdfFile) (page : Nat) : Except PdfError String :=
  match load_document f with
  | .error e => .error e
  | .ok doc =>
    if page < 1 ∨ doc.pageKeys.length < page then
      .error (.pageNotFound page doc.pageKeys.length)
    else
      match doc.extractPage page with
      | .ok text => .ok text
      | .error e => .error (.parseError (pageFailMsg page e))

/-- The message of the range-ordering error in `extract_page_range_text`. -/
def rangeErrMsg (startPage endPage : Nat) : String :=
  "Invalid page range: start_page (" ++ Nat.repr startPage ++
    ") must be <= end_page (" ++ Nat.repr endPage ++ ")"

/-- Rust `start..=end` as a list (used only after `start ≤ end` holds). -/
def rangeIncl (startPage endPage : Nat) : List Nat :=
  List.range' startPage (endPage + 1 - startPage)

/-- `PdfReader::extract_page_range_text`: load, validate start then end
against the page-table length, validate the ordering, then run the same
per-page loop over the inclusive range. -/
def extract_page_range_text (f : PdfFile) (startPage endPage : Nat) :
    Except PdfError String :=
  match load_document f with
  | .error e => .error e
  | .ok doc =>
    if startPage < 1 ∨ doc.pageKeys.length < startPage then
      .error (.pageNotFound startPage doc.pageKeys.length)
    else if endPage < 1 ∨ doc.pageKeys.length < endPage then
      .error (.pageNotFound endPage doc.pageKeys.length)
    else if endPage < startPage then
      .error (.parseError (rangeErrMsg startPage endPage))
    else
      let r := (rangeIncl startPage endPage).foldl (pageStep doc) ("", [])
      if r.2 = [] then .ok r.1 else .ok (r.1 ++ skippedNote r.2)

/-- The `PdfInfo` struct of `src/pdf_reader.rs`. -/
structure PdfInfo where
  page_count : Nat
  title : Option String
  author : Option String
  subject : Option String
  creator : Option String
  deriving DecidableEq, Repr

/-- `PdfReader::get_string_from_dict`: keyed lookup then best-effort
text-string decoding, any failure yielding `none`. -/
def getStringFromDict (d : Dict) (key : String) : Option String :=
  match d.find key with
  | .ok obj => obj.decodeText.toOption
  | .error _ => none

/-- The Info-dictionary resolution performed inside
`PdfReader::extract_metadata`: read the trailer's `Info` slot, try indirect
resolution first, then direct-dictionary interpretation, else absent. -/
def resolveInfoDict (doc : Document) : Option Dict :=
  match doc.trailerInfo with
  | .error _ => none
  | .ok infoRef =>
    match infoRef.asRef with
    | .ok refId => (doc.getDictionary refId).toOption
    | .error _ => infoRef.asDict.toOption

/-- `PdfReader::extract_metadata`: resolve the Info dictionary and read the
four recognized keys, each independently best-effort. -/
def extract_metadata (doc : Document) :
    Option String × Option String × Option String × Option String :=
  match resolveInfoDict doc with
  | none => (none, none, none, none)
  | some d =>
      (getStringFromDict d "Title", getStringFromDict d "Author",
        getStringFromDict d "Subject", getStringFromDict d "Creator")

/-- `PdfReader::get_info`: load, read the page count from the page table,
and fill the metadata fields from the Info dictionary. -/
def get_info (f : PdfFile) : Except PdfError PdfInfo :=
  match load_document f with
  | .error e => .error e
  | .ok doc =>
    let m := extract_metadata doc
    .ok ⟨doc.pageKeys.length, m.1, m.2.1, m.2.2.1, m.2.2.2⟩

/-- A JSON value as emitted for a `PdfInfo` field. -/
inductive JsonVal where
  | num (n : Nat)
  | str (s : String)
  | null
  deriving DecidableEq, Repr

/-- The field list serde emits for `PdfInfo`: `page_count` always, and each
optional field only when present, per the
`#[serde(skip_serializing_if = "Option::is_none")]` attributes on the
struct in `src/pdf_reader.rs`. -/
def serializedInfoFields (info : PdfInfo) : List (String × JsonVal) :=
  [("page_count", JsonVal.num info.page_count)]
  ++ (match info.title with | some s => [("title", JsonVal.str s)] | none => [])
  ++ (match info.author with | some s => [("author", JsonVal.str s)] | none => [])
  ++ (match info.subject with | some s => [("subject", JsonVal.str s)] | none => [])
  ++ (match info.creator with | some s => [("creator", JsonVal.str s)] | none => [])

/-- Whether decoding page `n` of `doc` fails. -/
def decodeFails (doc : Document) (n : Nat) : Bool :=
  match doc.extractPage n with
  | .ok _ => false
  | .error _ => true

/-! ### Spec-side description of whole-document accumulation

These definitions follow the specification's words for `extract_all`
(fold in table order; a single newline separator only when both the
accumulator and the new page text are non-empty; skipped pages recorded
and reported after the loop) and are compared against the embedded
`extract_text`. -/

/-- Spec-side append: insert a single newline separator only when both the
accumulator and the new text are non-empty. -/
def spec_append (acc t : String) : String :=
  if acc = "" then acc ++ t
  else if t = "" then acc ++ t
  else acc ++ "\n" ++ t

/-- Spec-side accumulator pair (text buffer, ordered skipped indices)
threaded through a single forward pass over the page sequence. -/
def spec_accumulate (doc : Document) : List Nat → String × List Nat → String × List Nat
  | [], st => st
  | n :: rest, st =>
    match doc.extractPage n with
    | .ok t => spec_accumulate doc rest (spec_append st.1 t, st.2)
    | .error _ => spec_accumulate doc rest (st.1, st.2 ++ [n])

/-- Spec-side whole-document extraction result: the accumulated text, plus
the diagnostic suffix when any pages were skipped. -/
def spec_extract_all (doc : Document) : String :=
  let st := spec_accumulate doc doc.pageKeys ("", [])
  if st.2 = [] then st.1 else st.1 ++ skippedNote st.2

/-! ### Concrete documents used by the witnesses -/

/-- A three-page document whose middle page fails to decode. -/
def exDocA : Document where
  pageKeys := [1, 2, 3]
  extractPage := fun n =>
    if n = 1 then .ok "Alpha" else if n = 3 then .ok "Gamma" else .error "boom"
  trailerInfo := .error ()
  getDictionary := fun _ => .error ()
  isEncrypted := false
  hasEncryptionState := false

/-- A file whose provider parse yields `exDocA`. -/
def exFileA : PdfFile := ⟨"/docs/a.pdf", true, .ok exDocA⟩

/-- A second view of the same unmodified file contents as `exFileA`. -/
def exFileA2 : PdfFile := ⟨"/docs/a.pdf", true, .ok exDocA⟩

/-- A two-page document where every page decodes. -/
def exDoc2 : Document :=
  ⟨[1, 2], fun _ => .ok "x", .error (), fun _ => .error (), false, false⟩

/-- A file whose provider parse yields `exDoc2`. -/
def exFile2 : PdfFile := ⟨"/docs/b.pdf", true, .ok exDoc2⟩

/-- A two-page document where every page fails to decode. -/
def exDocF : Document :=
  ⟨[1, 2], fun _ => .error "bad", .error (), fun _ => .error (), false, false⟩

/-- A file whose provider parse yields `exDocF`. -/
def exFileF : PdfFile := ⟨"/docs/f.pdf", true, .ok exDocF⟩

/-- An Info dictionary whose `Title` decodes, whose `Author` is present but
fails text-string decoding, and whose other keys are absent. -/
def exDict : Dict :=
  ⟨fun k =>
    if k = "Title" then .ok ⟨.ok "My Title"⟩
    else if k = "Author" then .ok ⟨.error ()⟩
    else .error ()⟩

/-- A one-page document whose trailer Info slot holds a direct dictionary
(indirect resolution fails, direct interpretation succeeds). -/
def exDocM : Document :=
  ⟨[1], fun _ => .ok "t", .ok ⟨.error (), .ok exDict⟩, fun _ => .error (), false, false⟩

/-- A file whose provider parse yields `exDocM`. -/
def exFileM : PdfFile := ⟨"/docs/m.pdf", true, .ok exDocM⟩

/-- A path that does not resolve to an existing file. -/
def exFileMissing : PdfFile := ⟨"/docs/missing.pdf", false, .error "io"⟩

/-- A file whose provider load fails with an encryption indicator. -/
def exFileEnc : PdfFile := ⟨"/docs/e.pdf", true, .error "the file is encrypted"⟩

/-- A file whose provider load fails with an invalidity indicator. -/
def exFileInv : PdfFile := ⟨"/docs/i.pdf", true, .error "invalid xref entry"⟩

/-- A file whose provider load fails with a generic message. -/
def exFileParse : PdfFile := ⟨"/docs/p.pdf", true, .error "unexpected end of stream"⟩

/-- A document that parses but reports itself encrypted with no
decryption state. -/
def exDocEncH : Document :=
  ⟨[1], fun _ => .ok "", .error (), fun _ => .error (), true, false⟩

/-- A file whose provider parse yields the encrypted handle `exDocEncH`. -/
def exFileEncH : PdfFile := ⟨"/docs/h.pdf", true, .ok exDocEncH⟩

/-! ### Helper lemmas -/

theorem str_empty_append (s : String) : "" ++ s = s := by
  cases s
  rfl

theorem spec_append_eq (acc t : String) :
    spec_append acc t =
      (if acc ≠ "" ∧ t ≠ "" then acc ++ "\n" ++ t else acc ++ t) := by
  by_cases ha : acc = "" <;> by_cases ht : t = "" <;> simp [spec_append, ha, ht]

theorem foldl_pageStep_snd (doc : Document) (l : List Nat) (acc : String × List Nat) :
    (l.foldl (pageStep doc) acc).2 = acc.2 ++ l.filter (fun n => decodeFails doc n) := by
  induction l generalizing acc with
  | nil => simp
  | cons n rest ih =>
    rw [List.foldl_cons, ih]
    cases hx : doc.extractPage n with
    | ok t => simp [pageStep, hx, decodeFails, List.filter_cons]
    | error e => simp [pageStep, hx, decodeFails, List.filter_cons]

theorem foldl_pageStep_fst_allfail (doc : Document) (l : List Nat)
    (acc : String × List Nat) (h : ∀ n ∈ l, decodeFails doc n = true) :
    (l.foldl (pageStep doc) acc).1 = acc.1 := by
  induction l generalizing acc with
  | nil => rfl
  | cons n rest ih =>
    rw [List.foldl_cons]
    have hn : decodeFails doc n = true := h n (by simp)
    cases hx : doc.extractPage n with
    | ok t => simp [decodeFails, hx] at hn
    | error e =>
      rw [ih _ fun m hm => h m (by simp [hm])]
      simp [pageStep, hx]

theorem spec_accumulate_eq_foldl (doc : Document) (l : List Nat)
    (st : String × List Nat) :
    spec_accumulate doc l st = l.foldl (pageStep doc) st := by
  induction l generalizing st with
  | nil => rfl
  | cons n rest ih =>
    rw [List.foldl_cons]
    cases hx : doc.extractPage n with
    | ok t => simp [spec_accumulate, hx, pageStep, ih, spec_append_eq]
    | error e => simp [spec_accumulate, hx, pageStep, ih]

theorem mem_rangeIncl (s e p : Nat) (h1 : s ≤ p) (h2 : p ≤ e) :
    p ∈ rangeIncl s e := by
  unfold rangeIncl
  rw [List.mem_range'_1]
  omega

theorem rangeIncl_ne_nil (s e : Nat) (h : s ≤ e) : rangeIncl s e ≠ [] := by
  have : (rangeIncl s e).length = e + 1 - s := by
    unfold rangeIncl; rw [List.length_range']
  intro hc
  rw [hc] at this
  simp at this
  omega

/-! ### Claims -/

/-- C6: for every file path that does not resolve to an existing file,
`load_document` — and hence every public operation — fails with
`FileNotFound` carrying that path, and the provider's parser is never
invoked (the result is independent of what the provider would return). -/
theorem claim_C6_file_not_found : ∀ f : PdfFile, f.pathExists = false →
    load_document f = .error (.fileNotFound f.path) ∧
    extract_text f = .error (.fileNotFound f.path) ∧
    (∀ p, extract_page_text f p = .error (.fileNotFound f.path)) ∧
    (∀ s e, extract_page_range_text f s e = .error (.fileNotFound f.path)) ∧
    get_info f = .error (.fileNotFound f.path) ∧
    (∀ r : Except String Document,
      load_document { f with loadResult := r } = load_document f) := by
  intro f h
  have hl : load_document f = .error (.fileNotFound f.path) := by
    simp [load_document, h]
  refine ⟨hl, ?_, ?_, ?_, ?_, ?_⟩
  · simp [extract_text, hl]
  · intro p; simp [extract_page_text, hl]
  · intro s e; simp [extract_page_range_text, hl]
  · simp [get_info, hl]
  · intro r; simp [load_document, h]

/-- Witness for C6 at the concrete missing file. -/
theorem claim_C6_witness :
    exFileMissing.pathExists = false ∧
    load_document exFileMissing = .error (.fileNotFound "/docs/missing.pdf") ∧
    extract_text exFileMissing = .error (.fileNotFound "/docs/missing.pdf") := by
  have h := claim_C6_file_not_found exFileMissing rfl
  exact ⟨rfl, h.1, h.2.1⟩

/-- C2: for every document that loads successfully and every requested page
`p` with `p < 1` or `p > page_count`, `extract_page_text` fails with
`PageNotFound(p, page_count)`, where `page_count` is the length of the
document's page table, and `get_info` on the same document reports that
same page count. -/
theorem claim_C2_page_not_found : ∀ (f : PdfFile) (doc : Document) (p : Nat),
    load_document f = .ok doc → (p < 1 ∨ doc.pageKeys.length < p) →
    extract_page_text f p = .error (.pageNotFound p doc.pageKeys.length) ∧
    ∃ info, get_info f = .ok info ∧ info.page_count = doc.pageKeys.length := by
  intro f doc p hl hp
  constructor
  · simp only [extract_page_text, hl]
    rw [if_pos hp]
  · refine ⟨⟨doc.pageKeys.length, (extract_metadata doc).1, (extract_metadata doc).2.1,
      (extract_metadata doc).2.2.1, (extract_metadata doc).2.2.2⟩, ?_, rfl⟩
    simp [get_info, hl]

/-- Witness for C2: page 5 of a three-page document. -/
theorem claim_C2_witness :
    extract_page_text exFileA 5 = .error (.pageNotFound 5 3) ∧
    ∃ info, get_info exFileA = .ok info ∧ info.page_count = 3 := by
  have h := claim_C2_page_not_found exFileA exDocA 5 rfl (by right; decide)
  exact ⟨h.1, h.2⟩

/-- C9: every read-only operation is deterministic — two invocations
against the same path with the same file contents (existence and provider
result) return identical results. -/
theorem claim_C9_deterministic : ∀ f g : PdfFile,
    f.path = g.path → f.pathExists = g.pathExists → f.loadResult = g.loadResult →
    extract_text f = extract_text g ∧
    (∀ p, extract_page_text f p = extract_page_text g p) ∧
    (∀ s e, extract_page_range_text f s e = extract_page_range_text g s e) ∧
    get_info f = get_info g := by
  intro f g h1 h2 h3
  obtain ⟨fp, fe, fr⟩ := f
  obtain ⟨gp, ge, gr⟩ := g
  cases h1
  cases h2
  cases h3
  exact ⟨rfl, fun _ => rfl, fun _ _ => rfl, rfl⟩

/-- Witness for C9: two views of the same unmodified file agree. -/
theorem claim_C9_witness :
    extract_text exFileA = extract_text exFileA2 ∧
    get_info exFileA = get_info exFileA2 := by
  have h := claim_C9_deterministic exFileA exFileA2 rfl rfl rfl
  exact ⟨h.1, h.2.2.2⟩

/-- C5: when the provider's load fails, the failure is classified by
substring match on its message — an encryption/password indicator yields
`EncryptedDocument`; otherwise an invalidity indicator yields
`InvalidFormat` carrying the message; otherwise `ParseError` carrying the
message — and a handle that parses but reports itself encrypted with no
decryption state yields `EncryptedDocument`. -/
theorem claim_C5_load_classification : ∀ (f : PdfFile) (msg : String),
    f.pathExists = true →
    (f.loadResult = .error msg →
      ((containsStr msg "encrypted" || containsStr msg "password") = true →
        load_document f = .error .encryptedDocument) ∧
      ((containsStr msg "encrypted" || containsStr msg "password") = false →
        (containsStr msg "invalid" || containsStr msg "Invalid") = true →
        load_document f = .error (.invalidFormat msg)) ∧
      ((containsStr msg "encrypted" || containsStr msg "password") = false →
        (containsStr msg "invalid" || containsStr msg "Invalid") = false →
        load_document f = .error (.parseError msg))) ∧
    (∀ doc, f.loadResult = .ok doc → doc.isEncrypted = true →
      doc.hasEncryptionState = false →
      load_document f = .error .encryptedDocument) := by
  intro f msg hex
  constructor
  · intro hres
    have hld : load_document f = .error (classifyLoadError msg) := by
      simp [load_document, hex, hres]
    refine ⟨?_, ?_, ?_⟩
    · intro h1
      rw [hld, classifyLoadError, if_pos]
      simp only [Bool.or_eq_true] at h1
      exact h1
    · intro h1 h2
      rw [hld, classifyLoadError, if_neg, if_pos]
      · simp only [Bool.or_eq_true] at h2
        exact h2
      · simp only [Bool.or_eq_false_iff] at h1
        simp [h1.1, h1.2]
    · intro h1 h2
      rw [hld, classifyLoadError, if_neg, if_neg]
      · simp only [Bool.or_eq_false_iff] at h2
        simp [h2.1, h2.2]
      · simp only [Bool.or_eq_false_iff] at h1
        simp [h1.1, h1.2]
  · intro doc hres henc hstate
    simp [load_document, hex, hres, henc, hstate]

/-- Witness for C5: the three message classes and the post-parse
encryption check, each at a concrete file. -/
theorem claim_C5_witness :
    load_document exFileEnc = .error .encryptedDocument ∧
    load_document exFileInv = .error (.invalidFormat "invalid xref entry") ∧
    load_document exFileParse = .error (.parseError "unexpected end of stream") ∧
    load_document exFileEncH = .error .encryptedDocument := by
  refine ⟨?_, ?_, ?_, ?_⟩
  · exact ((claim_C5_load_classification exFileEnc "the file is encrypted" rfl).1
      rfl).1 rfl
  · exact (((claim_C5_load_classification exFileInv "invalid xref entry" rfl).1
      rfl).2.1 rfl rfl)
  · exact (((claim_C5_load_classification exFileParse "unexpected end of stream"
      rfl).1 rfl).2.2 rfl rfl)
  · exact (claim_C5_load_classification exFileEncH "" rfl).2 exDocEncH rfl rfl rfl

/-- C1 counterexample: with both bounds in range and start > end, the
range-ordering error produced by `extract_page_range_text` is a
`ParseError`, and at the tool boundary it is mapped to the internal-error
class, not invalid-parameters as the claim states. -/
theorem claim_C1_counterexample :
    extract_page_range_text exFile2 2 1 = .error (.parseError (rangeErrMsg 2 1)) ∧
    (errorDataFrom (PdfError.parseError (rangeErrMsg 2 1))).cls ≠
      ErrorClass.invalidParams := by
  constructor
  · rfl
  · intro h
    simp [errorDataFrom] at h

/-- C1 (amended): for every loaded document and every pair of bounds both
in `[1, page_count]` with start > end, `extract_page_range_text` fails with
a range-ordering `ParseError` whose message carries both bounds in their
original order (never swapped), and at the tool boundary this error is
mapped to the internal-error protocol class. -/
theorem claim_C1_amended_range_error : ∀ (f : PdfFile) (doc : Document) (s e : Nat),
    load_document f = .ok doc →
    1 ≤ s → s ≤ doc.pageKeys.length → 1 ≤ e → e ≤ doc.pageKeys.length → e < s →
    extract_page_range_text f s e = .error (.parseError (rangeErrMsg s e)) ∧
    errorDataFrom (.parseError (rangeErrMsg s e)) =
      ⟨.internalError, "PDF parsing failed: " ++ rangeErrMsg s e⟩ := by
  intro f doc s e hl hs1 hs2 he1 he2 hes
  constructor
  · simp only [extract_page_range_text, hl]
    rw [if_neg (by omega), if_neg (by omega), if_pos hes]
  · rfl

/-- Witness for the amended C1 at a concrete two-page document with
start = 2, end = 1. -/
theorem claim_C1_witness :
    extract_page_range_text exFile2 2 1 = .error (.parseError (rangeErrMsg 2 1)) ∧
    errorDataFrom (.parseError (rangeErrMsg 2 1)) =
      ⟨.internalError, "PDF parsing failed: " ++ rangeErrMsg 2 1⟩ :=
  claim_C1_amended_range_error exFile2 exDoc2 2 1 rfl (by decide) (by decide)
    (by decide) (by decide) (by decide)

/-- C3: for every document that loads successfully, `extract_text` returns
the fold over the page table in table order described by the spec —
newline separator only when both accumulator and new text are non-empty,
trailing diagnostic note exactly when pages were skipped — and an empty
page table yields the empty string rather than an error. -/
theorem claim_C3_extract_all_spec : ∀ (f : PdfFile) (doc : Document),
    load_document f = .ok doc →
    extract_text f = .ok (spec_extract_all doc) ∧
    (doc.pageKeys = [] → extract_text f = .ok "") := by
  intro f doc hl
  constructor
  · simp only [extract_text, hl]
    by_cases hk : doc.pageKeys = []
    · rw [if_pos hk]
      simp [spec_extract_all, hk, spec_accumulate]
    · rw [if_neg hk]
      simp only [spec_extract_all, spec_accumulate_eq_foldl]
      by_cases hs : (doc.pageKeys.foldl (pageStep doc) ("", [])).2 = []
      · rw [if_pos hs, if_pos hs]
      · rw [if_neg hs, if_neg hs]
  · intro hk
    simp [extract_text, hl, hk]

/-- Witness for C3: the three-page document with one failing page meets the
spec-side description. -/
theorem claim_C3_witness :
    extract_text exFileA = .ok (spec_extract_all exDocA) ∧
    spec_extract_all exDocA =
      "Alpha\nGamma\n\n[Note: 1 page(s) could not be extracted due to font encoding issues: [2]]" := by
  have h := claim_C3_extract_all_spec exFileA exDocA rfl
  exact ⟨h.1, by rfl⟩

/-- C4: for every document that loads successfully, `get_info` always
returns `Ok`; an absent trailer Info entry, an Info reference that resolves
neither indirectly nor as a direct dictionary, or a per-key decode failure
each degrade to absent fields (each key independently); and the returned
`page_count` equals the length of the page table used by extraction. -/
theorem claim_C4_get_info_total : ∀ (f : PdfFile) (doc : Document),
    load_document f = .ok doc →
    ∃ info, get_info f = .ok info ∧
      info.page_count = doc.pageKeys.length ∧
      (doc.trailerInfo = .error () →
        info.title = none ∧ info.author = none ∧ info.subject = none ∧
          info.creator = none) ∧
      (resolveInfoDict doc = none →
        info.title = none ∧ info.author = none ∧ info.subject = none ∧
          info.creator = none) ∧
      (∀ d, resolveInfoDict doc = some d →
        info.title = getStringFromDict d "Title" ∧
        info.author = getStringFromDict d "Author" ∧
        info.subject = getStringFromDict d "Subject" ∧
        info.creator = getStringFromDict d "Creator") := by
  intro f doc hl
  refine ⟨⟨doc.pageKeys.length, (extract_metadata doc).1, (extract_metadata doc).2.1,
    (extract_metadata doc).2.2.1, (extract_metadata doc).2.2.2⟩, ?_, rfl, ?_, ?_, ?_⟩
  · simp [get_info, hl]
  · intro ht
    simp [extract_metadata, resolveInfoDict, ht]
  · intro hr
    simp [extract_metadata, hr]
  · intro d hr
    simp [extract_metadata, hr]

/-- Witness for C4: a document whose Info slot is a direct dictionary with
a decodable Title and an Author that fails decoding. -/
theorem claim_C4_witness :
    ∃ info, get_info exFileM = .ok info ∧ info.page_count = 1 ∧
      info.title = some "My Title" ∧ info.author = none := by
  obtain ⟨info, h1, h2, -, -, h5⟩ := claim_C4_get_info_total exFileM exDocM rfl
  have hd := h5 exDict rfl
  refine ⟨info, h1, h2, ?_, ?_⟩
  · rw [hd.1]; rfl
  · rw [hd.2.1]; rfl

/-- C8: serializing a `PdfInfo` omits every absent optional field rather
than emitting a null or empty-string placeholder, so an absent field is
distinguishable from a present empty string; `page_count` is always
emitted. -/
theorem claim_C8_serialization : ∀ info : PdfInfo,
    (serializedInfoFields info).lookup "title" = info.title.map JsonVal.str ∧
    (serializedInfoFields info).lookup "author" = info.author.map JsonVal.str ∧
    (serializedInfoFields info).lookup "subject" = info.subject.map JsonVal.str ∧
    (serializedInfoFields info).lookup "creator" = info.creator.map JsonVal.str ∧
    (serializedInfoFields info).lookup "page_count" = some (.num info.page_count) ∧
    (∀ kv ∈ serializedInfoFields info, kv.2 ≠ JsonVal.null) := by
  intro info
  obtain ⟨pc, t, a, s, c⟩ := info
  cases t <;> cases a <;> cases s <;> cases c <;>
    simp [serializedInfoFields, List.lookup]

/-- Witness for C8: a present empty-string title is emitted while an
absent author is omitted. -/
theorem claim_C8_witness :
    (serializedInfoFields ⟨2, some "", none, none, some "c"⟩).lookup "title" =
      some (.str "") ∧
    (serializedInfoFields ⟨2, some "", none, none, some "c"⟩).lookup "author" =
      none := by
  have h := claim_C8_serialization ⟨2, some "", none, none, some "c"⟩
  exact ⟨h.1, h.2.1⟩

/-- C7: for a valid page whose text decoding fails, `extract_page_text`
surfaces the failure as a `ParseError`, whereas `extract_text` and
`extract_page_range_text` on a range containing that page record the index
as skipped, continue, and return the other pages' text with a trailing note
listing exactly the failed indices (the filter of the iterated pages by
decode failure). -/
theorem claim_C7_isolated_decode_failure : ∀ (f : PdfFile) (doc : Document)
    (p : Nat) (msg : String) (s e : Nat),
    load_document f = .ok doc →
    1 ≤ p → p ≤ doc.pageKeys.length → p ∈ doc.pageKeys →
    doc.extractPage p = .error msg →
    1 ≤ s → s ≤ p → p ≤ e → e ≤ doc.pageKeys.length →
    extract_page_text f p = .error (.parseError (pageFailMsg p msg)) ∧
    (extract_text f =
      .ok ((doc.pageKeys.foldl (pageStep doc) ("", [])).1 ++
        skippedNote (doc.pageKeys.filter (fun n => decodeFails doc n))) ∧
      p ∈ doc.pageKeys.filter (fun n => decodeFails doc n)) ∧
    (extract_page_range_text f s e =
      .ok (((rangeIncl s e).foldl (pageStep doc) ("", [])).1 ++
        skippedNote ((rangeIncl s e).filter (fun n => decodeFails doc n))) ∧
      p ∈ (rangeIncl s e).filter (fun n => decodeFails doc n)) := by
  intro f doc p msg s e hl hp1 hp2 hpmem hx hs1 hsp hpe he2
  have hdf : decodeFails doc p = true := by simp [decodeFails, hx]
  have hmem1 : p ∈ doc.pageKeys.filter (fun n => decodeFails doc n) :=
    List.mem_filter.mpr ⟨hpmem, hdf⟩
  have hmem2 : p ∈ (rangeIncl s e).filter (fun n => decodeFails doc n) :=
    List.mem_filter.mpr ⟨mem_rangeIncl s e p hsp hpe, hdf⟩
  refine ⟨?_, ⟨?_, hmem1⟩, ⟨?_, hmem2⟩⟩
  · simp only [extract_page_text, hl]
    rw [if_neg (by omega : ¬(p < 1 ∨ doc.pageKeys.length < p))]
    simp [hx]
  · have hk : doc.pageKeys ≠ [] := List.ne_nil_of_mem hpmem
    have hsnd : (doc.pageKeys.foldl (pageStep doc) ("", [])).2 =
        doc.pageKeys.filter (fun n => decodeFails doc n) := by
      rw [foldl_pageStep_snd]; simp
    have hne : (doc.pageKeys.foldl (pageStep doc) ("", [])).2 ≠ [] := by
      rw [hsnd]; exact List.ne_nil_of_mem hmem1
    simp only [extract_text, hl]
    rw [if_neg hk, if_neg hne, hsnd]
  · have hsnd : ((rangeIncl s e).foldl (pageStep doc) ("", [])).2 =
        (rangeIncl s e).filter (fun n => decodeFails doc n) := by
      rw [foldl_pageStep_snd]; simp
    have hne : ((rangeIncl s e).foldl (pageStep doc) ("", [])).2 ≠ [] := by
      rw [hsnd]; exact List.ne_nil_of_mem hmem2
    simp only [extract_page_range_text, hl]
    rw [if_neg (by omega : ¬(s < 1 ∨ doc.pageKeys.length < s)),
      if_neg (by omega : ¬(e < 1 ∨ doc.pageKeys.length < e)),
      if_neg (by omega : ¬(e < s)), if_neg hne, hsnd]

/-- Witness for C7: page 2 of the three-page document fails to decode;
the single-page call errors while the whole-document call skips it. -/
theorem claim_C7_witness :
    extract_page_text exFileA 2 = .error (.parseError (pageFailMsg 2 "boom")) ∧
    extract_text exFileA =
      .ok ((exDocA.pageKeys.foldl (pageStep exDocA) ("", [])).1 ++
        skippedNote (exDocA.pageKeys.filter (fun n => decodeFails exDocA n))) ∧
    2 ∈ exDocA.pageKeys.filter (fun n => decodeFails exDocA n) := by
  have h := claim_C7_isolated_decode_failure exFileA exDocA 2 "boom" 1 3 rfl
    (by decide) (by decide) (by decide) rfl (by decide) (by decide) (by decide)
    (by decide)
  exact ⟨h.1, h.2.1.1, h.2.1.2⟩

/-- C10: once a document loads successfully, `extract_text` always returns
`Ok`, and `extract_page_range_text` with ordered in-range bounds always
returns `Ok`; the skipped indices are exactly the iterated pages whose
decoding failed, in iteration order; and when every page in scope fails,
the result is `Ok` with just the diagnostic note (which begins with two
newlines). -/
theorem claim_C10_loaded_always_ok : ∀ (f : PdfFile) (doc : Document),
    load_document f = .ok doc →
    (∃ t, extract_text f = .ok t) ∧
    (∀ s e, 1 ≤ s → s ≤ e → e ≤ doc.pageKeys.length →
      ∃ t, extract_page_range_text f s e = .ok t) ∧
    ((doc.pageKeys.foldl (pageStep doc) ("", [])).2 =
      doc.pageKeys.filter (fun n => decodeFails doc n)) ∧
    (∀ s e, ((rangeIncl s e).foldl (pageStep doc) ("", [])).2 =
      (rangeIncl s e).filter (fun n => decodeFails doc n)) ∧
    (doc.pageKeys ≠ [] → (∀ n ∈ doc.pageKeys, decodeFails doc n = true) →
      extract_text f = .ok (skippedNote doc.pageKeys)) ∧
    (∀ s e, 1 ≤ s → s ≤ e → e ≤ doc.pageKeys.length →
      (∀ n ∈ rangeIncl s e, decodeFails doc n = true) →
      extract_page_range_text f s e = .ok (skippedNote (rangeIncl s e))) := by
  intro f doc hl
  refine ⟨?_, ?_, ?_, ?_, ?_, ?_⟩
  · simp only [extract_text, hl]
    by_cases hk : doc.pageKeys = []
    · exact ⟨"", by rw [if_pos hk]⟩
    · rw [if_neg hk]
      by_cases hs : (doc.pageKeys.foldl (pageStep doc) ("", [])).2 = []
      · exact ⟨_, by rw [if_pos hs]⟩
      · exact ⟨_, by rw [if_neg hs]⟩
  · intro s e hs1 hse he2
    simp only [extract_page_range_text, hl]
    rw [if_neg (by omega : ¬(s < 1 ∨ doc.pageKeys.length < s)),
      if_neg (by omega : ¬(e < 1 ∨ doc.pageKeys.length < e)),
      if_neg (by omega : ¬(e < s))]
    by_cases hs2 : ((rangeIncl s e).foldl (pageStep doc) ("", [])).2 = []
    · exact ⟨_, by rw [if_pos hs2]⟩
    · exact ⟨_, by rw [if_neg hs2]⟩
  · rw [foldl_pageStep_snd]; simp
  · intro s e; rw [foldl_pageStep_snd]; simp
  · intro hk hall
    have hfst : (doc.pageKeys.foldl (pageStep doc) ("", [])).1 = "" :=
      foldl_pageStep_fst_allfail doc doc.pageKeys ("", []) hall
    have hsnd : (doc.pageKeys.foldl (pageStep doc) ("", [])).2 = doc.pageKeys := by
      rw [foldl_pageStep_snd]
      simp only [List.nil_append]
      exact List.filter_eq_self.mpr hall
    have hne : (doc.pageKeys.foldl (pageStep doc) ("", [])).2 ≠ [] := by
      rw [hsnd]; exact hk
    simp only [extract_text, hl]
    rw [if_neg hk, if_neg hne, hsnd, hfst, str_empty_append]
  · intro s e hs1 hse he2 hall
    have hfst : ((rangeIncl s e).foldl (pageStep doc) ("", [])).1 = "" :=
      foldl_pageStep_fst_allfail doc (rangeIncl s e) ("", []) hall
    have hsnd : ((rangeIncl s e).foldl (pageStep doc) ("", [])).2 = rangeIncl s e := by
      rw [foldl_pageStep_snd]
      simp only [List.nil_append]
      exact List.filter_eq_self.mpr hall
    have hne : ((rangeIncl s e).foldl (pageStep doc) ("", [])).2 ≠ [] := by
      rw [hsnd]; exact rangeIncl_ne_nil s e hse
    simp only [extract_page_range_text, hl]
    rw [if_neg (by omega : ¬(s < 1 ∨ doc.pageKeys.length < s)),
      if_neg (by omega : ¬(e < 1 ∨ doc.pageKeys.length < e)),
      if_neg (by omega : ¬(e < s)), if_neg hne, hsnd, hfst, str_empty_append]

/-- Witness for C10: the two-page document where every page fails yields
`Ok` with just the diagnostic note, for both the whole-document and the
full-range calls. -/
theorem claim_C10_witness :
    extract_text exFileF = .ok (skippedNote exDocF.pageKeys) ∧
    extract_page_range_text exFileF 1 2 = .ok (skippedNote (rangeIncl 1 2)) ∧
    (∃ t, extract_text exFileF = .ok t) := by
  have h := claim_C10_loaded_always_ok exFileF exDocF rfl
  exact ⟨h.2.2.2.2.1 (by decide) (by decide),
    h.2.2.2.2.2 1 2 (by decide) (by decide) (by decide) (by decide), h.1⟩

end PdfMcp
